import Mathlib

/-!
Shallow embedding of `plaso/parsers/winreg_plugins/amcache.py`.

The embedding models the two Windows Registry Amcache plugins
(`Amcache10Parser` for the modern Windows 10 schema and `Amcache8Parser`
for the legacy Windows 8 schema).  Registry values carry a payload that is
an integer, a string, a list of strings, or Python `None`; the relevant
Python primitives (`'{:d}'.format`, `'{:s}'.format`, `int(...)`,
`int(..., 16)`, `'\n'.join`, slicing `[4:]`, `str.startswith`,
`datetime.strptime(...).strftime('%s')`) are modelled explicitly,
including which Python exception (`ValueError` / `TypeError`) they raise,
because the source only catches `ValueError` and only in two places.
-/

deriving instance DecidableEq for Except

/-- Python exceptions that the modelled primitives can raise.  The source
code catches `ValueError` in exactly two places (the `Language` / `Size`
branches of the modern file decoder and the `Language` branch of the
modern program decoder); every other exception propagates and aborts the
record. -/
inductive PyError where
  | valueError
  | typeError
deriving Repr, DecidableEq

/-- Raw payload of a registry value, as returned by
`registry_value.GetDataAsObject()`: an integer, a string, a list of
strings, or Python `None`. -/
inductive RegData where
  | int (n : Int)
  | str (s : String)
  | list (l : List String)
  | none
deriving Repr, DecidableEq

/-- A named registry value (`dfwinreg` value abstraction): `name` and the
decoded data object. -/
structure RegistryValue where
  name : String
  data : RegData
deriving Repr, DecidableEq

/-- A registry key: path, last-written timestamp (kept as an opaque
integer identifier, passed through as-is by the modern decoders), and the
ordered list of values yielded by `GetValues()`. -/
structure RegistryKey where
  path : String
  lastWrittenTime : Int
  values : List RegistryValue
deriving Repr, DecidableEq

/-- Fuel-driven digit writer: emits the decimal digit characters of `n`,
most significant first, provided `n < fuel`. -/
def natDecCharsAux : Nat → Nat → List Char
  | 0, _ => []
  | fuel + 1, n =>
    if n < 10 then [Char.ofNat (48 + n)]
    else natDecCharsAux fuel (n / 10) ++ [Char.ofNat (48 + n % 10)]

/-- Decimal digit characters of a natural number, most significant first.
Models the canonical decimal form used by Python's `'{:d}'.format`. -/
def natDecChars (n : Nat) : List Char :=
  natDecCharsAux (n + 1) n

/-- Canonical decimal representation of an integer, as produced by
Python's `'{:d}'.format` on an `int`. -/
def decRepr (n : Int) : String :=
  if n < 0 then String.mk ('-' :: natDecChars (-n).toNat)
  else String.mk (natDecChars n.toNat)

/-- Model of `'{:d}'.format(x)`.  Succeeds only on integer payloads; a
string payload raises `ValueError` (Python: "Unknown format code 'd' for
object of type 'str'"), a list or `None` payload raises `TypeError`
(`object.__format__` rejects a non-empty format spec). -/
def formatD : RegData → Except PyError String
  | .int n => .ok (decRepr n)
  | .str _ => .error .valueError
  | .list _ => .error .typeError
  | .none => .error .typeError

/-- Model of `'{:s}'.format(x)`.  Succeeds only on string payloads; an
integer payload raises `ValueError` (Python: "Unknown format code 's' for
object of type 'int'"), a list or `None` payload raises `TypeError`. -/
def formatS : RegData → Except PyError String
  | .str s => .ok s
  | .int _ => .error .valueError
  | .list _ => .error .typeError
  | .none => .error .typeError

/-- Accumulating decimal reader: consumes the whole character list,
failing on the first non-digit. -/
def decValAux : Nat → List Char → Option Nat
  | acc, [] => some acc
  | acc, c :: cs =>
    if c.isDigit then decValAux (acc * 10 + (c.toNat - 48)) cs else Option.none

/-- Reads a non-empty all-digit character list as a natural number. -/
def parseDecNat : List Char → Option Nat
  | [] => Option.none
  | cs => decValAux 0 cs

/-- Model of Python `int(s)` on the strings this program feeds it (the
output of `'{:d}'.format` on an integer): an optional minus sign followed
by decimal digits; anything else raises `ValueError`. -/
def pyInt10 (s : String) : Except PyError Int :=
  match s.data with
  | [] => .error .valueError
  | c :: rest =>
    if c = '-' then
      match parseDecNat rest with
      | some v => .ok (-(v : Int))
      | Option.none => .error .valueError
    else
      match parseDecNat (c :: rest) with
      | some v => .ok ((v : Int))
      | Option.none => .error .valueError

/-- Value of a single hexadecimal digit character, if any. -/
def hexDigitVal (c : Char) : Option Nat :=
  if 48 ≤ c.toNat ∧ c.toNat ≤ 57 then some (c.toNat - 48)
  else if 97 ≤ c.toNat ∧ c.toNat ≤ 102 then some (c.toNat - 87)
  else if 65 ≤ c.toNat ∧ c.toNat ≤ 70 then some (c.toNat - 55)
  else Option.none

/-- Accumulating hexadecimal reader over a whole character list. -/
def hexValAux : Nat → List Char → Option Nat
  | acc, [] => some acc
  | acc, c :: cs =>
    match hexDigitVal c with
    | some d => hexValAux (acc * 16 + d) cs
    | Option.none => Option.none

/-- Reads a non-empty hexadecimal digit list, with an optional `0x` /
`0X` marker. -/
def parseHexNat (cs : List Char) : Option Nat :=
  match cs with
  | '0' :: 'x' :: rest => match rest with
    | [] => Option.none
    | _ => hexValAux 0 rest
  | '0' :: 'X' :: rest => match rest with
    | [] => Option.none
    | _ => hexValAux 0 rest
  | [] => Option.none
  | other => hexValAux 0 other

/-- Model of Python `int(s, 16)`: optional sign, optional `0x` marker,
hexadecimal digits; anything else raises `ValueError`. -/
def pyInt16 (s : String) : Except PyError Int :=
  match s.data with
  | '-' :: rest =>
    match parseHexNat rest with
    | some v => .ok (-(v : Int))
    | Option.none => .error .valueError
  | '+' :: rest =>
    match parseHexNat rest with
    | some v => .ok ((v : Int))
    | Option.none => .error .valueError
  | cs =>
    match parseHexNat cs with
    | some v => .ok ((v : Int))
    | Option.none => .error .valueError

/-- Model of `int('{:d}'.format(x))`: format first, then the base-10
read of the resulting canonical decimal string. -/
def intOfFormatD (x : RegData) : Except PyError Int :=
  match formatD x with
  | .ok s => pyInt10 s
  | .error e => .error e

/-- Model of the `try: int('{:d}'.format(x)) except ValueError:
int('{:s}'.format(x), 16)` pattern of the modern `Language` and `Size`
branches.  Only `ValueError` is caught; `TypeError` propagates. -/
def intHexFallback (x : RegData) : Except PyError Int :=
  match intOfFormatD x with
  | .ok n => .ok n
  | .error .valueError =>
    match formatS x with
    | .ok s => pyInt16 s
    | .error e => .error e
  | .error .typeError => .error .typeError

/-- Model of Python `'\n'.join(x)`: joins a list of strings; a plain
string is iterated character by character; an integer or `None` raises
`TypeError`. -/
def pyJoin : RegData → Except PyError String
  | .list l => .ok (String.intercalate "\n" l)
  | .str s => .ok (String.intercalate "\n" (s.data.map Char.toString))
  | .int _ => .error .typeError
  | .none => .error .typeError

/-- Model of the Python slice `s[n:]`, which drops the first `n` code
points and never fails (a short string just yields a shorter or empty
result). -/
def pySliceFrom (n : Nat) (s : String) : String :=
  String.mk (s.data.drop n)

/-- Model of Python `str.startswith` on code points. -/
def charsStartWith : List Char → List Char → Bool
  | _, [] => true
  | [], _ :: _ => false
  | c :: cs, p :: ps => c = p && charsStartWith cs ps

/-- Model of `s.startswith(pat)`. -/
def pyStartsWith (s pat : String) : Bool :=
  charsStartWith s.data pat.data

/-- Gregorian leap-year test. -/
def isLeap (y : Nat) : Bool :=
  (y % 4 == 0 && y % 100 != 0) || y % 400 == 0

/-- Number of days in a month of a given year. -/
def daysInMonth (y m : Nat) : Nat :=
  if m = 2 then (if isLeap y then 29 else 28)
  else if m = 4 ∨ m = 6 ∨ m = 9 ∨ m = 11 then 30
  else 31

/-- Days between 1970-01-01 and the given civil date (standard
days-from-civil computation). -/
def daysFromCivil (y : Int) (m d : Nat) : Int :=
  let y' : Int := if m ≤ 2 then y - 1 else y
  let era : Int := (if 0 ≤ y' then y' else y' - 399) / 400
  let yoe : Int := y' - era * 400
  let mp : Int := ((m : Int) + 9) % 12
  let doy : Int := (153 * mp + 2) / 5 + (d : Int) - 1
  let doe : Int := yoe * 365 + yoe / 4 - yoe / 100 + doy
  era * 146097 + doe - 719468

/-- Takes up to `n` leading digit characters. -/
def splitDigits : List Char → Nat → (List Char × List Char)
  | cs, 0 => ([], cs)
  | [], _ + 1 => ([], [])
  | c :: cs, n + 1 =>
    if c.isDigit then
      let p := splitDigits cs n
      (c :: p.1, p.2)
    else ([], c :: cs)

/-- Numeric value of a non-empty digit list. -/
def natOfDigits (ds : List Char) : Option Nat :=
  match ds with
  | [] => Option.none
  | _ => some (ds.foldl (fun a c => a * 10 + (c.toNat - 48)) 0)

/-- Expects a specific literal character at the head of the input. -/
def expectChar (c : Char) : List Char → Option (List Char)
  | x :: rest => if x = c then some rest else Option.none
  | [] => Option.none

/-- Model of `int(datetime.datetime.strptime(s, "%m/%d/%Y
%H:%M:%S").strftime("%s"))`: parses a `MM/DD/YYYY HH:MM:SS` date string
(one or two digits per field, exactly four for the year, matching the
strptime patterns), validates the calendar fields as `datetime` does, and
converts to Unix epoch seconds.  Returns `none` where Python raises
`ValueError`. -/
def parseDateString (s : String) : Option Int := do
  let cs := s.data
  let p1 := splitDigits cs 2
  let m ← natOfDigits p1.1
  let r1 ← expectChar '/' p1.2
  let p2 := splitDigits r1 2
  let d ← natOfDigits p2.1
  let r2 ← expectChar '/' p2.2
  let p3 := splitDigits r2 4
  if p3.1.length ≠ 4 then failure
  let y ← natOfDigits p3.1
  let r3 ← expectChar ' ' p3.2
  let p4 := splitDigits r3 2
  let hh ← natOfDigits p4.1
  let r4 ← expectChar ':' p4.2
  let p5 := splitDigits r4 2
  let mi ← natOfDigits p5.1
  let r5 ← expectChar ':' p5.2
  let p6 := splitDigits r5 2
  let ss ← natOfDigits p6.1
  if p6.2 ≠ [] then failure
  if 1 ≤ m ∧ m ≤ 12 ∧ 1 ≤ y ∧ 1 ≤ d ∧ d ≤ daysInMonth y m ∧
      hh ≤ 23 ∧ mi ≤ 59 ∧ ss ≤ 59 then
    pure (daysFromCivil (y : Int) m d * 86400 +
      (hh : Int) * 3600 + (mi : Int) * 60 + (ss : Int))
  else failure

/-- Wraps `parseDateString` as the fallible Python expression it models:
a failed parse raises `ValueError`. -/
def strptimeUnix (s : String) : Except PyError Int :=
  match parseDateString s with
  | some t => .ok t
  | Option.none => .error .valueError

/-- Semantic meaning attached to an emitted event
(`definitions.TIME_DESCRIPTION_*`). -/
inductive TimeDescription where
  | modification
  | creation
  | installation
  | change
deriving Repr, DecidableEq

/-- Instant carried by an emitted event: either the key's
last-written-time object passed through as-is (modern decoders), or a
`filetime.Filetime` / `posix_time.PosixTime` built from an integer. -/
inductive Instant where
  | raw (t : Int)
  | filetime (t : Int)
  | posix (t : Int)
deriving Repr, DecidableEq

/-- One `(record, instant, meaning)` tuple handed to
`parser_mediator.ProduceEventWithEventData`. -/
structure Emission (R : Type) where
  record : R
  instant : Instant
  meaning : TimeDescription
deriving Repr, DecidableEq

/-- Value stored in a field that the source assigns sometimes an integer
and sometimes a string (`languagecode` of program records). -/
inductive IntOrStr where
  | int (n : Int)
  | str (s : String)
deriving Repr, DecidableEq

/-- Mirror of `AmcacheEventData.__init__`: every attribute starts as
`None`. -/
structure AmcacheEventData where
  full_path : Option String := Option.none
  sha1 : Option String := Option.none
  productname : Option String := Option.none
  companyname : Option String := Option.none
  fileversion : Option String := Option.none
  languagecode : Option Int := Option.none
  filesize : Option Int := Option.none
  filedescription : Option String := Option.none
  linkerts : Option Int := Option.none
  lastmodifiedts : Option Int := Option.none
  createdts : Option Int := Option.none
  programid : Option String := Option.none
deriving Repr, DecidableEq

/-- Mirror of `AmcacheProgramEventData.__init__`: every attribute starts
as `None`. -/
structure AmcacheProgramEventData where
  name : Option String := Option.none
  version : Option String := Option.none
  publisher : Option String := Option.none
  languagecode : Option IntOrStr := Option.none
  entrytype : Option String := Option.none
  uninstallkey : Option String := Option.none
  filepaths : Option String := Option.none
  productcode : Option String := Option.none
  packagecode : Option String := Option.none
  msiproductcode : Option String := Option.none
  msipackagecode : Option String := Option.none
  files : Option String := Option.none
  OSatinstall : Option String := Option.none
deriving Repr, DecidableEq

/-- Freshly initialized `AmcacheEventData`. -/
def initAmcacheEventData : AmcacheEventData := {}

/-- Freshly initialized `AmcacheProgramEventData`. -/
def initAmcacheProgramEventData : AmcacheProgramEventData := {}

/-- Loop state of `Amcache10Parser._ProcessAMCacheWin10FileKey`: the
local `linkdateint` variable (starts as `None`) and the mutated
`event_data`. -/
structure Win10FileState where
  linkdateint : Option Int := Option.none
  ed : AmcacheEventData := {}
deriving Repr, DecidableEq

/-- Initial state of the modern file-key scan. -/
def initWin10FileState : Win10FileState := {}

/-- The `elif` chain of `_ProcessAMCacheWin10FileKey` for every branch
other than the leading `LinkDate` one; each of these branches only
assigns one `event_data` attribute.  Unmatched names fall through
unchanged (the chain has no `else`). -/
def win10FileEdStep (ed : AmcacheEventData) (v : RegistryValue) :
    Except PyError AmcacheEventData :=
  if v.name = "LowerCaseLongPath" then
    (formatS v.data).map fun s => { ed with full_path := some s }
  else if v.name = "FileId" then
    (formatS v.data).map fun s => { ed with sha1 := some (pySliceFrom 4 s) }
  else if v.name = "ProductName" then
    (formatS v.data).map fun s => { ed with productname := some s }
  else if v.name = "Publisher" then
    (formatS v.data).map fun s => { ed with companyname := some s }
  else if v.name = "Version" then
    (formatS v.data).map fun s => { ed with fileversion := some s }
  else if v.name = "Language" then
    (intHexFallback v.data).map fun n => { ed with languagecode := some n }
  else if v.name = "Size" then
    (intHexFallback v.data).map fun n => { ed with filesize := some n }
  else if v.name = "ProgramId" then
    (formatS v.data).map fun s => { ed with programid := some s }
  else .ok ed

/-- One iteration of the `_ProcessAMCacheWin10FileKey` value loop.  The
leading `LinkDate` branch is the only one that touches `linkdateint`:
it renders the payload with `'{:s}'.format`, ignores an empty string,
and otherwise parses it with `strptime` (whose `ValueError` is not
caught). -/
def win10FileStep (st : Win10FileState) (v : RegistryValue) :
    Except PyError Win10FileState :=
  if v.name = "LinkDate" then
    match formatS v.data with
    | .error e => .error e
    | .ok s =>
      if s ≠ "" then
        match strptimeUnix s with
        | .ok t => .ok { st with linkdateint := some t }
        | .error e => .error e
      else .ok st
  else
    match win10FileEdStep st.ed v with
    | .ok ed' => .ok { st with ed := ed' }
    | .error e => .error e

/-- Loop state of `Amcache10Parser._ProcessAMCacheWin10ProgramKey`. -/
structure Win10ProgramState where
  installdateint : Option Int := Option.none
  ed : AmcacheProgramEventData := {}
deriving Repr, DecidableEq

/-- Initial state of the modern program-key scan. -/
def initWin10ProgramState : Win10ProgramState := {}

/-- The `elif` chain of `_ProcessAMCacheWin10ProgramKey` for every
branch other than the leading `InstallDate` one.  The `Language` branch
catches `ValueError` from the decimal interpretation and falls back to
storing the rendered string itself. -/
def win10ProgramEdStep (ed : AmcacheProgramEventData) (v : RegistryValue) :
    Except PyError AmcacheProgramEventData :=
  if v.name = "Name" then
    (formatS v.data).map fun s => { ed with name := some s }
  else if v.name = "Version" then
    (formatS v.data).map fun s => { ed with version := some s }
  else if v.name = "Publisher" then
    (formatS v.data).map fun s => { ed with publisher := some s }
  else if v.name = "Language" then
    match intOfFormatD v.data with
    | .ok n => .ok { ed with languagecode := some (IntOrStr.int n) }
    | .error .valueError =>
      (formatS v.data).map fun s => { ed with languagecode := some (IntOrStr.str s) }
    | .error .typeError => .error .typeError
  else if v.name = "Type" then
    (formatS v.data).map fun s => { ed with entrytype := some s }
  else if v.name = "RegistryKeyPath" then
    (formatS v.data).map fun s => { ed with uninstallkey := some s }
  else if v.name = "ManifestPath" then
    (formatS v.data).map fun s => { ed with filepaths := some s }
  else if v.name = "OSVersionAtInstallTime" then
    (formatS v.data).map fun s => { ed with OSatinstall := some s }
  else if v.name = "MsiProductCode" then
    (formatS v.data).map fun s => { ed with msiproductcode := some s }
  else if v.name = "MsiPackageCode" then
    (formatS v.data).map fun s => { ed with msipackagecode := some s }
  else if v.name = "RootDirPath" then
    (formatS v.data).map fun s => { ed with files := some s }
  else .ok ed

/-- One iteration of the `_ProcessAMCacheWin10ProgramKey` value loop;
the leading `InstallDate` branch mirrors the `LinkDate` one. -/
def win10ProgramStep (st : Win10ProgramState) (v : RegistryValue) :
    Except PyError Win10ProgramState :=
  if v.name = "InstallDate" then
    match formatS v.data with
    | .error e => .error e
    | .ok s =>
      if s ≠ "" then
        match strptimeUnix s with
        | .ok t => .ok { st with installdateint := some t }
        | .error e => .error e
      else .ok st
  else
    match win10ProgramEdStep st.ed v with
    | .ok ed' => .ok { st with ed := ed' }
    | .error e => .error e

/-- Loop state of `Amcache8Parser._ProcessAMCacheFileKey`: the local
`amcache_datetime` variable (initialized to `0`, not `None`) and the
mutated `event_data`. -/
structure FileState8 where
  amcache_datetime : Int := 0
  ed : AmcacheEventData := {}
deriving Repr, DecidableEq

/-- Initial state of the legacy file-key scan. -/
def initFileState8 : FileState8 := {}

/-- The `elif` chain of `_ProcessAMCacheFileKey` for every branch other
than the leading `"17"` (datetime) one.  Note that the `"3"` and `"6"`
branches use `int('{:d}'.format(...))` with no `try` around them: there
is no hexadecimal fallback in the legacy decoder. -/
def file8EdStep (ed : AmcacheEventData) (v : RegistryValue) :
    Except PyError AmcacheEventData :=
  if v.name = "15" then
    (formatS v.data).map fun s => { ed with full_path := some s }
  else if v.name = "101" then
    (formatS v.data).map fun s => { ed with sha1 := some (pySliceFrom 4 s) }
  else if v.name = "0" then
    (formatS v.data).map fun s => { ed with productname := some s }
  else if v.name = "1" then
    (formatS v.data).map fun s => { ed with companyname := some s }
  else if v.name = "5" then
    (formatS v.data).map fun s => { ed with fileversion := some s }
  else if v.name = "3" then
    (intOfFormatD v.data).map fun n => { ed with languagecode := some n }
  else if v.name = "6" then
    (intOfFormatD v.data).map fun n => { ed with filesize := some n }
  else if v.name = "c" then
    (formatS v.data).map fun s => { ed with filedescription := some s }
  else if v.name = "f" then
    (intOfFormatD v.data).map fun n => { ed with linkerts := some n }
  else if v.name = "11" then
    (intOfFormatD v.data).map fun n => { ed with lastmodifiedts := some n }
  else if v.name = "12" then
    (intOfFormatD v.data).map fun n => { ed with createdts := some n }
  else if v.name = "100" then
    (formatS v.data).map fun s => { ed with programid := some s }
  else .ok ed

/-- One iteration of the `_ProcessAMCacheFileKey` value loop; the
leading `"17"` branch assigns `amcache_datetime` via
`int('{:d}'.format(...))`. -/
def fileStep8 (st : FileState8) (v : RegistryValue) :
    Except PyError FileState8 :=
  if v.name = "17" then
    match intOfFormatD v.data with
    | .ok n => .ok { st with amcache_datetime := n }
    | .error e => .error e
  else
    match file8EdStep st.ed v with
    | .ok ed' => .ok { st with ed := ed' }
    | .error e => .error e

/-- Loop state of `Amcache8Parser._ProcessAMCacheProgramKey`. -/
structure ProgState8 where
  amcache_datetime : Int := 0
  ed : AmcacheProgramEventData := {}
deriving Repr, DecidableEq

/-- Initial state of the legacy program-key scan. -/
def initProgState8 : ProgState8 := {}

/-- The `elif` chain of `_ProcessAMCacheProgramKey` for every branch
other than the leading `"a"` (install date) one.  The `"7"` and
`"Files"` branches guard against a `None` payload before joining; the
`"d"`, `"11"` and `"12"` branches do not, so `'\n'.join(None)` raises
an uncaught `TypeError` there. -/
def prog8EdStep (ed : AmcacheProgramEventData) (v : RegistryValue) :
    Except PyError AmcacheProgramEventData :=
  if v.name = "0" then
    (formatS v.data).map fun s => { ed with name := some s }
  else if v.name = "1" then
    (formatS v.data).map fun s => { ed with version := some s }
  else if v.name = "2" then
    (formatS v.data).map fun s => { ed with publisher := some s }
  else if v.name = "3" then
    (formatS v.data).map fun s => { ed with languagecode := some (IntOrStr.str s) }
  else if v.name = "6" then
    (formatS v.data).map fun s => { ed with entrytype := some s }
  else if v.name = "7" then
    match v.data with
    | RegData.none => .ok ed
    | d => (pyJoin d).map fun j => { ed with uninstallkey := some j }
  else if v.name = "d" then
    (pyJoin v.data).map fun j => { ed with filepaths := some j }
  else if v.name = "f" then
    (formatS v.data).map fun s => { ed with productcode := some s }
  else if v.name = "10" then
    (formatS v.data).map fun s => { ed with packagecode := some s }
  else if v.name = "11" then
    (pyJoin v.data).map fun j => { ed with msiproductcode := some j }
  else if v.name = "12" then
    (pyJoin v.data).map fun j => { ed with msipackagecode := some j }
  else if v.name = "Files" then
    match v.data with
    | RegData.none => .ok ed
    | d => (pyJoin d).map fun j => { ed with files := some j }
  else .ok ed

/-- One iteration of the `_ProcessAMCacheProgramKey` value loop; the
leading `"a"` branch assigns `amcache_datetime` via
`int('{:d}'.format(...))`. -/
def progStep8 (st : ProgState8) (v : RegistryValue) :
    Except PyError ProgState8 :=
  if v.name = "a" then
    match intOfFormatD v.data with
    | .ok n => .ok { st with amcache_datetime := n }
    | .error e => .error e
  else
    match prog8EdStep st.ed v with
    | .ok ed' => .ok { st with ed := ed' }
    | .error e => .error e

/-- Runs a value-loop body over the list of registry values, stopping at
the first uncaught exception (which aborts the whole record before any
event is produced, since all `ProduceEventWithEventData` calls come
after the loop). -/
def scanValues {σ : Type} (step : σ → RegistryValue → Except PyError σ) :
    σ → List RegistryValue → Except PyError σ
  | st, [] => .ok st
  | st, v :: rest =>
    match step st v with
    | .ok st' => scanValues step st' rest
    | .error e => .error e

/-- Emissions of `_ProcessAMCacheWin10FileKey`: the key's
last-written-time (as-is) with Modification always, then — only when
`linkdateint` is truthy (`if linkdateint:` — set and nonzero) — a
PosixTime Creation event on the same record. -/
def processWin10FileKey (key : RegistryKey) :
    Except PyError (List (Emission AmcacheEventData)) :=
  match scanValues win10FileStep initWin10FileState key.values with
  | .error e => .error e
  | .ok st =>
    let first : Emission AmcacheEventData :=
      ⟨st.ed, Instant.raw key.lastWrittenTime, TimeDescription.modification⟩
    match st.linkdateint with
    | some t =>
      if t ≠ 0 then
        .ok [first, ⟨st.ed, Instant.posix t, TimeDescription.creation⟩]
      else .ok [first]
    | Option.none => .ok [first]

/-- Emissions of `_ProcessAMCacheWin10ProgramKey`: the key's
last-written-time (as-is) with Installation always, then — when
`installdateint is not None` (a parsed value of `0` still qualifies) —
a PosixTime Installation event on the same record. -/
def processWin10ProgramKey (key : RegistryKey) :
    Except PyError (List (Emission AmcacheProgramEventData)) :=
  match scanValues win10ProgramStep initWin10ProgramState key.values with
  | .error e => .error e
  | .ok st =>
    let first : Emission AmcacheProgramEventData :=
      ⟨st.ed, Instant.raw key.lastWrittenTime, TimeDescription.installation⟩
    match st.installdateint with
    | some t => .ok [first, ⟨st.ed, Instant.posix t, TimeDescription.installation⟩]
    | Option.none => .ok [first]

/-- The `if event_data.createdts:` trailing emission of
`_ProcessAMCacheFileKey` (truthiness gate: set and nonzero). -/
def created8Block (ed : AmcacheEventData) : List (Emission AmcacheEventData) :=
  match ed.createdts with
  | some t =>
    if t ≠ 0 then [⟨ed, Instant.filetime t, TimeDescription.creation⟩] else []
  | Option.none => []

/-- The `if event_data.lastmodifiedts:` trailing emission of
`_ProcessAMCacheFileKey`. -/
def lastmod8Block (ed : AmcacheEventData) : List (Emission AmcacheEventData) :=
  match ed.lastmodifiedts with
  | some t =>
    if t ≠ 0 then [⟨ed, Instant.filetime t, TimeDescription.modification⟩] else []
  | Option.none => []

/-- The `if event_data.linkerts:` trailing emission of
`_ProcessAMCacheFileKey`. -/
def link8Block (ed : AmcacheEventData) : List (Emission AmcacheEventData) :=
  match ed.linkerts with
  | some t =>
    if t ≠ 0 then [⟨ed, Instant.posix t, TimeDescription.change⟩] else []
  | Option.none => []

/-- Emissions of `_ProcessAMCacheFileKey`: a Filetime Modification event
from `amcache_datetime` (the `"17"` value, default `0`) always, then
truthiness-gated Filetime Creation (from `"12"`), Filetime Modification
(from `"11"`) and PosixTime Change (from `"f"`) events, all on the same
record. -/
def processAmcacheFileKey (key : RegistryKey) :
    Except PyError (List (Emission AmcacheEventData)) :=
  match scanValues fileStep8 initFileState8 key.values with
  | .error e => .error e
  | .ok st =>
    .ok ([⟨st.ed, Instant.filetime st.amcache_datetime, TimeDescription.modification⟩] ++
      created8Block st.ed ++ lastmod8Block st.ed ++ link8Block st.ed)

/-- Emissions of `_ProcessAMCacheProgramKey`: exactly one PosixTime
Installation event from `amcache_datetime` (the `"a"` value, default
`0`), with no zero-suppression. -/
def processAmcacheProgramKey (key : RegistryKey) :
    Except PyError (List (Emission AmcacheProgramEventData)) :=
  match scanValues progStep8 initProgState8 key.values with
  | .error e => .error e
  | .ok st =>
    .ok [⟨st.ed, Instant.posix st.amcache_datetime, TimeDescription.installation⟩]

/-- The modern file-key path head constant
(`_AMCACHE_ROOT_WIN10_FILE_KEY`). -/
def amcacheRootWin10FileKey : String := "\\Root\\InventoryApplicationFile"

/-- The modern program-key path head constant
(`_AMCACHE_ROOT_WIN10_PROGRAM_KEY`). -/
def amcacheRootWin10ProgramKey : String := "\\Root\\InventoryApplication"

/-- Result of `Amcache10Parser.ExtractEvents`: which decoder ran and
what it produced (`skip` covers both the empty-key early return and an
unmatched path). -/
inductive Amcache10Output where
  | skip
  | fileEvents (r : Except PyError (List (Emission AmcacheEventData)))
  | programEvents (r : Except PyError (List (Emission AmcacheProgramEventData)))
deriving Repr, DecidableEq

/-- Mirror of `Amcache10Parser.ExtractEvents`: returns early on keys
with no values, then tests the file-key path head before the
program-key one. -/
def amcache10ExtractEvents (key : RegistryKey) : Amcache10Output :=
  if key.values.length = 0 then .skip
  else if pyStartsWith key.path amcacheRootWin10FileKey then
    .fileEvents (processWin10FileKey key)
  else if pyStartsWith key.path amcacheRootWin10ProgramKey then
    .programEvents (processWin10ProgramKey key)
  else .skip

/-- Value names recognized by the `_ProcessAMCacheWin10FileKey` branch
chain. -/
def win10FileNames : List String :=
  ["LinkDate", "LowerCaseLongPath", "FileId", "ProductName", "Publisher",
   "Version", "Language", "Size", "ProgramId"]

/-- Value names recognized by the `_ProcessAMCacheWin10ProgramKey`
branch chain. -/
def win10ProgramNames : List String :=
  ["InstallDate", "Name", "Version", "Publisher", "Language", "Type",
   "RegistryKeyPath", "ManifestPath", "OSVersionAtInstallTime",
   "MsiProductCode", "MsiPackageCode", "RootDirPath"]

/-- Value names recognized by the `_ProcessAMCacheFileKey` branch
chain. -/
def file8Names : List String :=
  ["17", "15", "101", "0", "1", "5", "3", "6", "c", "f", "11", "12", "100"]

/-- Value names recognized by the `_ProcessAMCacheProgramKey` branch
chain. -/
def prog8Names : List String :=
  ["a", "0", "1", "2", "3", "6", "7", "d", "f", "10", "11", "12", "Files"]

/-- Splitting an accumulating decimal read over an append. -/
theorem decValAux_append (l1 l2 : List Char) (acc : Nat) :
    decValAux acc (l1 ++ l2) =
      (decValAux acc l1).bind fun a => decValAux a l2 := by
  induction l1 generalizing acc with
  | nil => simp [decValAux]
  | cons c cs ih =>
    simp only [List.cons_append, decValAux]
    by_cases h : c.isDigit
    · simp [h, ih]
    · simp [h]

/-- The character written for a single digit is a digit character with
the expected code point. -/
theorem char48_isDigit (n : Nat) (h : n < 10) :
    (Char.ofNat (48 + n)).isDigit = true ∧ (Char.ofNat (48 + n)).toNat = 48 + n := by
  interval_cases n <;> exact ⟨by decide, by decide⟩

/-- Reading a single written digit. -/
theorem decValAux_digitChar (a n : Nat) (h : n < 10) :
    decValAux a [Char.ofNat (48 + n)] = some (a * 10 + n) := by
  have hd := char48_isDigit n h
  simp [decValAux, hd.1, hd.2]

/-- Reading back the digits written for `n` yields `n` (with the
accumulator scaled by the written width). -/
theorem decValAux_natDecCharsAux (fuel : Nat) :
    ∀ n acc, n < fuel →
      decValAux acc (natDecCharsAux fuel n) =
        some (acc * 10 ^ (natDecCharsAux fuel n).length + n) := by
  induction fuel with
  | zero => intro n acc h; omega
  | succ fuel ih =>
    intro n acc h
    by_cases h10 : n < 10
    · rw [natDecCharsAux, if_pos h10, decValAux_digitChar acc n h10]
      simp
    · rw [natDecCharsAux, if_neg h10, decValAux_append]
      have hlt : n / 10 < fuel := by
        have := Nat.div_lt_self (show 0 < n by omega) (show 1 < 10 by omega)
        omega
      rw [ih (n / 10) acc hlt]
      simp only [Option.some_bind]
      rw [decValAux_digitChar _ (n % 10) (Nat.mod_lt n (by omega))]
      simp only [List.length_append, List.length_singleton]
      congr 1
      have hn : n / 10 * 10 + n % 10 = n := by omega
      calc (acc * 10 ^ (natDecCharsAux fuel (n / 10)).length + n / 10) * 10 + n % 10
          = acc * (10 ^ (natDecCharsAux fuel (n / 10)).length * 10) +
            (n / 10 * 10 + n % 10) := by ring
        _ = acc * 10 ^ ((natDecCharsAux fuel (n / 10)).length + 1) + n := by
            rw [hn, pow_succ]

/-- The written digit list is non-empty and starts with a digit
character. -/
theorem natDecCharsAux_cons (fuel : Nat) :
    ∀ n, n < fuel →
      ∃ c cs, natDecCharsAux fuel n = c :: cs ∧ c.isDigit = true := by
  induction fuel with
  | zero => intro n h; omega
  | succ fuel ih =>
    intro n h
    by_cases h10 : n < 10
    · refine ⟨Char.ofNat (48 + n), [], ?_, (char48_isDigit n h10).1⟩
      rw [natDecCharsAux, if_pos h10]
    · have hlt : n / 10 < fuel := by
        have := Nat.div_lt_self (show 0 < n by omega) (show 1 < 10 by omega)
        omega
      obtain ⟨c, cs, hc, hd⟩ := ih (n / 10) hlt
      refine ⟨c, cs ++ [Char.ofNat (48 + n % 10)], ?_, hd⟩
      rw [natDecCharsAux, if_neg h10, hc]
      rfl

/-- `natDecChars` is non-empty and starts with a digit character. -/
theorem natDecChars_cons (n : Nat) :
    ∃ c cs, natDecChars n = c :: cs ∧ c.isDigit = true :=
  natDecCharsAux_cons (n + 1) n (by omega)

/-- Round trip: reading back the canonical decimal digits of `n`. -/
theorem parseDecNat_natDecChars (n : Nat) : parseDecNat (natDecChars n) = some n := by
  obtain ⟨c, cs, hc, _⟩ := natDecChars_cons n
  rw [hc]
  show decValAux 0 (c :: cs) = some n
  rw [← hc]
  unfold natDecChars
  rw [decValAux_natDecCharsAux (n + 1) n 0 (by omega)]
  simp

/-- Unfolding `pyInt10` on a string starting with a minus sign. -/
theorem pyInt10_mk_neg (cs : List Char) :
    pyInt10 ⟨'-' :: cs⟩ =
      match parseDecNat cs with
      | some v => .ok (-(v : Int))
      | Option.none => .error .valueError := rfl

/-- Unfolding `pyInt10` on a string starting with a non-minus
character. -/
theorem pyInt10_mk_cons (c : Char) (cs : List Char) (h : ¬ c = '-') :
    pyInt10 ⟨c :: cs⟩ =
      match parseDecNat (c :: cs) with
      | some v => .ok ((v : Int))
      | Option.none => .error .valueError := by
  have hsplit : pyInt10 ⟨c :: cs⟩ =
      if c = '-' then
        match parseDecNat cs with
        | some v => Except.ok (-(v : Int))
        | Option.none => Except.error PyError.valueError
      else
        match parseDecNat (c :: cs) with
        | some v => Except.ok ((v : Int))
        | Option.none => Except.error PyError.valueError := rfl
  rw [hsplit, if_neg h]

/-- Round trip through the Python primitives: `int` of the canonical
decimal representation of an integer is that integer. -/
theorem pyInt10_decRepr (n : Int) : pyInt10 (decRepr n) = .ok n := by
  unfold decRepr
  split
  case isTrue hneg =>
    rw [pyInt10_mk_neg, parseDecNat_natDecChars]
    show Except.ok (-(((-n).toNat : Nat) : Int)) = Except.ok n
    congr 1
    omega
  case isFalse hneg =>
    obtain ⟨c, cs, hc, hd⟩ := natDecChars_cons n.toNat
    have hne : ¬ c = '-' := by
      intro h'
      rw [h'] at hd
      exact absurd hd (by decide)
    rw [hc, pyInt10_mk_cons c cs hne, ← hc, parseDecNat_natDecChars]
    show Except.ok ((n.toNat : Int)) = Except.ok n
    congr 1
    omega

/-- `int('{:d}'.format(x))` on an integer payload returns it
unchanged. -/
theorem intOfFormatD_int (n : Int) : intOfFormatD (RegData.int n) = .ok n := by
  show pyInt10 (decRepr n) = .ok n
  exact pyInt10_decRepr n

/-- The decimal stage of the decimal/hex fallback succeeds exactly on
integer payloads, returning the payload. -/
theorem intHexFallback_int (n : Int) : intHexFallback (RegData.int n) = .ok n := by
  unfold intHexFallback
  rw [intOfFormatD_int]

/-- Splitting a value scan over an append. -/
theorem scanValues_append {σ : Type} (step : σ → RegistryValue → Except PyError σ)
    (l1 l2 : List RegistryValue) (st : σ) :
    scanValues step st (l1 ++ l2) =
      match scanValues step st l1 with
      | .ok st' => scanValues step st' l2
      | .error e => .error e := by
  induction l1 generalizing st with
  | nil => simp [scanValues]
  | cons v rest ih =>
    simp only [List.cons_append, scanValues]
    cases h : step st v with
    | ok st' => simp only [h]; exact ih st'
    | error e => simp only [h]

/-- A value on which the loop body is the identity can be dropped from
the scanned list without changing the result. -/
theorem scanValues_skip {σ : Type} (step : σ → RegistryValue → Except PyError σ)
    (v : RegistryValue) (hv : ∀ st, step st v = .ok st) :
    ∀ (l1 l2 : List RegistryValue) (st : σ),
      scanValues step st (l1 ++ v :: l2) = scanValues step st (l1 ++ l2) := by
  intro l1
  induction l1 with
  | nil =>
    intro l2 st
    simp only [List.nil_append, scanValues, hv st]
  | cons w ws ih =>
    intro l2 st
    simp only [List.cons_append, scanValues]
    cases h : step st w with
    | ok st' => simp only [h]; exact ih l2 st'
    | error e => simp only [h]

/-- A value whose name is not in the modern file-key branch chain leaves
the loop state unchanged. -/
theorem win10FileStep_unknown (v : RegistryValue) (h : v.name ∉ win10FileNames)
    (st : Win10FileState) : win10FileStep st v = .ok st := by
  simp only [win10FileNames, List.mem_cons, List.not_mem_nil, or_false, not_or] at h
  obtain ⟨h1, h2, h3, h4, h5, h6, h7, h8, h9⟩ := h
  simp [win10FileStep, win10FileEdStep, h1, h2, h3, h4, h5, h6, h7, h8, h9]

/-- A value whose name is not in the modern program-key branch chain
leaves the loop state unchanged. -/
theorem win10ProgramStep_unknown (v : RegistryValue) (h : v.name ∉ win10ProgramNames)
    (st : Win10ProgramState) : win10ProgramStep st v = .ok st := by
  simp only [win10ProgramNames, List.mem_cons, List.not_mem_nil, or_false, not_or] at h
  obtain ⟨h1, h2, h3, h4, h5, h6, h7, h8, h9, h10, h11, h12⟩ := h
  simp [win10ProgramStep, win10ProgramEdStep, h1, h2, h3, h4, h5, h6, h7, h8,
    h9, h10, h11, h12]

/-- A value whose name is not in the legacy file-key branch chain leaves
the loop state unchanged. -/
theorem fileStep8_unknown (v : RegistryValue) (h : v.name ∉ file8Names)
    (st : FileState8) : fileStep8 st v = .ok st := by
  simp only [file8Names, List.mem_cons, List.not_mem_nil, or_false, not_or] at h
  obtain ⟨h1, h2, h3, h4, h5, h6, h7, h8, h9, h10, h11, h12, h13⟩ := h
  simp [fileStep8, file8EdStep, h1, h2, h3, h4, h5, h6, h7, h8, h9, h10,
    h11, h12, h13]

/-- A value whose name is not in the legacy program-key branch chain
leaves the loop state unchanged. -/
theorem progStep8_unknown (v : RegistryValue) (h : v.name ∉ prog8Names)
    (st : ProgState8) : progStep8 st v = .ok st := by
  simp only [prog8Names, List.mem_cons, List.not_mem_nil, or_false, not_or] at h
  obtain ⟨h1, h2, h3, h4, h5, h6, h7, h8, h9, h10, h11, h12, h13⟩ := h
  simp [progStep8, prog8EdStep, h1, h2, h3, h4, h5, h6, h7, h8, h9, h10,
    h11, h12, h13]

/-- A loop iteration that sees no `InstallDate` value — or an
`InstallDate` value rendering to the empty string — leaves
`installdateint` unchanged. -/
theorem win10ProgramStep_keep (st st' : Win10ProgramState) (v : RegistryValue)
    (hempty : v.name = "InstallDate" → v.data = RegData.str "")
    (hok : win10ProgramStep st v = .ok st') :
    st'.installdateint = st.installdateint := by
  unfold win10ProgramStep at hok
  by_cases hn : v.name = "InstallDate"
  · rw [if_pos hn, hempty hn] at hok
    simp [formatS] at hok
    rw [← hok]
  · rw [if_neg hn] at hok
    cases hed : win10ProgramEdStep st.ed v with
    | ok ed' =>
      rw [hed] at hok
      simp at hok
      rw [← hok]
    | error e =>
      rw [hed] at hok
      simp at hok

/-- A successfully processed non-empty `InstallDate` string value sets
`installdateint`. -/
theorem win10ProgramStep_set (st st' : Win10ProgramState) (s : String)
    (hs : s ≠ "")
    (hok : win10ProgramStep st ⟨"InstallDate", RegData.str s⟩ = .ok st') :
    ∃ t, st'.installdateint = some t := by
  unfold win10ProgramStep at hok
  rw [if_pos rfl] at hok
  simp only [formatS] at hok
  rw [if_pos hs] at hok
  cases hp : strptimeUnix s with
  | ok t =>
    rw [hp] at hok
    simp at hok
    exact ⟨t, by rw [← hok]⟩
  | error e =>
    rw [hp] at hok
    simp at hok

/-- A successful loop iteration never clears `installdateint`. -/
theorem win10ProgramStep_some (st st' : Win10ProgramState) (v : RegistryValue)
    (hok : win10ProgramStep st v = .ok st')
    (hsome : st.installdateint.isSome) : st'.installdateint.isSome := by
  unfold win10ProgramStep at hok
  by_cases hn : v.name = "InstallDate"
  · rw [if_pos hn] at hok
    cases hf : formatS v.data with
    | ok s =>
      simp only [hf] at hok
      by_cases hs : s ≠ ""
      · rw [if_pos hs] at hok
        cases hp : strptimeUnix s with
        | ok t =>
          simp only [hp] at hok
          simp at hok
          rw [← hok]
          simp
        | error e => simp only [hp] at hok; simp at hok
      · rw [if_neg hs] at hok
        simp at hok
        rw [← hok]
        exact hsome
    | error e => simp only [hf] at hok; simp at hok
  · rw [if_neg hn] at hok
    cases hed : win10ProgramEdStep st.ed v with
    | ok ed' =>
      rw [hed] at hok
      simp at hok
      rw [← hok]
      exact hsome
    | error e => rw [hed] at hok; simp at hok

/-- Once set, `installdateint` stays set through the rest of a
successful scan. -/
theorem scanValues_win10Program_some :
    ∀ (l : List RegistryValue) (st st' : Win10ProgramState),
      scanValues win10ProgramStep st l = .ok st' →
      st.installdateint.isSome → st'.installdateint.isSome := by
  intro l
  induction l with
  | nil =>
    intro st st' h hs
    simp [scanValues] at h
    rw [← h]
    exact hs
  | cons v rest ih =>
    intro st st' h hs
    simp only [scanValues] at h
    cases hst : win10ProgramStep st v with
    | ok st1 =>
      rw [hst] at h
      exact ih st1 st' h (win10ProgramStep_some st st1 v hst hs)
    | error e => rw [hst] at h; simp at h

/-- A successful scan over values that carry no non-empty `InstallDate`
string leaves `installdateint` unchanged. -/
theorem scanValues_win10Program_keep :
    ∀ (l : List RegistryValue) (st st' : Win10ProgramState),
      (∀ v ∈ l, v.name = "InstallDate" → v.data = RegData.str "") →
      scanValues win10ProgramStep st l = .ok st' →
      st'.installdateint = st.installdateint := by
  intro l
  induction l with
  | nil =>
    intro st st' _ h
    simp [scanValues] at h
    rw [← h]
  | cons v rest ih =>
    intro st st' hall h
    simp only [scanValues] at h
    cases hst : win10ProgramStep st v with
    | ok st1 =>
      rw [hst] at h
      have h1 := win10ProgramStep_keep st st1 v (hall v (by simp)) hst
      have h2 := ih st1 st' (fun w hw => hall w (by simp [hw])) h
      rw [h2, h1]
    | error e => rw [hst] at h; simp at h

/-- The created-timestamp trailing emission is suppressed when the field
is unset or zero. -/
theorem created8Block_empty (ed : AmcacheEventData)
    (h : ed.createdts = Option.none ∨ ed.createdts = some 0) :
    created8Block ed = [] := by
  rcases h with h | h <;> simp [created8Block, h]

/-- The last-modified trailing emission is suppressed when the field is
unset or zero. -/
theorem lastmod8Block_empty (ed : AmcacheEventData)
    (h : ed.lastmodifiedts = Option.none ∨ ed.lastmodifiedts = some 0) :
    lastmod8Block ed = [] := by
  rcases h with h | h <;> simp [lastmod8Block, h]

/-- Everything in the created-timestamp block has meaning Creation. -/
theorem mem_created8Block (ed : AmcacheEventData) (e : Emission AmcacheEventData)
    (h : e ∈ created8Block ed) : e.meaning = TimeDescription.creation := by
  unfold created8Block at h
  cases hc : ed.createdts with
  | none => rw [hc] at h; simp at h
  | some t =>
    simp only [hc] at h
    by_cases h0 : t ≠ 0
    · rw [if_pos h0] at h
      simp at h
      rw [h]
    · rw [if_neg h0] at h
      simp at h

/-- Everything in the last-modified block has meaning Modification. -/
theorem mem_lastmod8Block (ed : AmcacheEventData) (e : Emission AmcacheEventData)
    (h : e ∈ lastmod8Block ed) : e.meaning = TimeDescription.modification := by
  unfold lastmod8Block at h
  cases hc : ed.lastmodifiedts with
  | none => rw [hc] at h; simp at h
  | some t =>
    simp only [hc] at h
    by_cases h0 : t ≠ 0
    · rw [if_pos h0] at h
      simp at h
      rw [h]
    · rw [if_neg h0] at h
      simp at h

/-- Everything in the link-timestamp block has meaning Change. -/
theorem mem_link8Block (ed : AmcacheEventData) (e : Emission AmcacheEventData)
    (h : e ∈ link8Block ed) : e.meaning = TimeDescription.change := by
  unfold link8Block at h
  cases hc : ed.linkerts with
  | none => rw [hc] at h; simp at h
  | some t =>
    simp only [hc] at h
    by_cases h0 : t ≠ 0
    · rw [if_pos h0] at h
      simp at h
      rw [h]
    · rw [if_neg h0] at h
      simp at h

/-- A string starting with an extended pattern also starts with the
pattern itself. -/
theorem charsStartWith_of_append (p q l : List Char)
    (h : charsStartWith l (p ++ q) = true) : charsStartWith l p = true := by
  induction p generalizing l with
  | nil => simp [charsStartWith]
  | cons c ps ih =>
    cases l with
    | nil => simp [charsStartWith] at h
    | cons c' ls =>
      simp only [List.cons_append, charsStartWith, Bool.and_eq_true] at h ⊢
      exact ⟨h.1, ih ls h.2⟩

/-- Claim C1 (corrected): a value present under a known name that cannot
be decoded under its declared rule is NOT confined to that single field.
A non-empty malformed `LinkDate` date string raises an uncaught
`ValueError` that aborts the whole record: the scan stops at the
offending value and no emission at all is produced for the key, even
when other fields (and the key timestamp) decoded successfully. -/
theorem claimC1_theorem (path : String) (t : Int) (pre post : List RegistryValue)
    (s : String) (st : Win10FileState)
    (hpre : scanValues win10FileStep initWin10FileState pre = .ok st)
    (hs : s ≠ "") (hbad : parseDateString s = Option.none) :
    processWin10FileKey ⟨path, t, pre ++ ⟨"LinkDate", RegData.str s⟩ :: post⟩ =
      .error PyError.valueError := by
  have hstep : win10FileStep st ⟨"LinkDate", RegData.str s⟩ =
      .error PyError.valueError := by
    unfold win10FileStep
    simp [formatS, hs, strptimeUnix, hbad]
  unfold processWin10FileKey
  rw [scanValues_append]
  rw [hpre]
  simp [scanValues, hstep]

/-- Claim C1 counterexample: a modern file key holding a decodable path
value and the malformed date `"15/45/2018"` produces no emissions at
all — the whole record aborts with the uncaught error, contradicting
"the field is left unset, the scan continues, and all other emissions
are still produced". -/
theorem claimC1_counterexample :
    processWin10FileKey ⟨"\\Root\\InventoryApplicationFile\\000abc", 77,
      [⟨"LowerCaseLongPath", RegData.str "c:\\x.exe"⟩,
       ⟨"LinkDate", RegData.str "15/45/2018"⟩]⟩ = .error PyError.valueError := by
  decide

/-- Claim C1 witness: the amended theorem applied at a concrete key. -/
theorem claimC1_witness :
    ("15/45/2018" : String) ≠ "" ∧ parseDateString "15/45/2018" = Option.none ∧
    processWin10FileKey ⟨"\\Root\\InventoryApplicationFile\\w1", 4,
      [⟨"LinkDate", RegData.str "15/45/2018"⟩]⟩ = .error PyError.valueError :=
  ⟨by decide, by decide,
    claimC1_theorem "\\Root\\InventoryApplicationFile\\w1" 4 [] []
      "15/45/2018" initWin10FileState rfl (by decide) (by decide)⟩

/-- Claim C2 (corrected): the decimal stage of the decimal/hex fallback
succeeds only on integer payloads (returning them unchanged), because
`'{:d}'.format` raises `ValueError` on a string; a string payload is
therefore always interpreted in base 16, so decoding the string `"16"`
yields 22, `"1a"` yields 26 and `"zz"` fails.  The legacy `"3"` and
`"6"` branches have no hexadecimal fallback at all: any string payload
fails there with an uncaught `ValueError`. -/
theorem claimC2_theorem (n : Int) (s : String) (ed : AmcacheEventData) :
    intHexFallback (RegData.int n) = .ok n ∧
    intHexFallback (RegData.str s) = pyInt16 s ∧
    pyInt16 "16" = .ok 22 ∧
    pyInt16 "1a" = .ok 26 ∧
    pyInt16 "zz" = .error PyError.valueError ∧
    file8EdStep ed ⟨"3", RegData.str s⟩ = .error PyError.valueError ∧
    file8EdStep ed ⟨"6", RegData.str s⟩ = .error PyError.valueError := by
  refine ⟨intHexFallback_int n, rfl, by decide, by decide, by decide, ?_, ?_⟩ <;> rfl

/-- Claim C2 counterexample: decoding the string `"16"` — whose textual
form is a clean decimal numeral — yields 22, not 16; and the legacy
language-code branch fails on the valid-hexadecimal string `"1a"`
instead of decoding it to 26. -/
theorem claimC2_counterexample :
    intHexFallback (RegData.str "16") = .ok 22 ∧
    ¬ intHexFallback (RegData.str "16") = .ok 16 ∧
    file8EdStep initAmcacheEventData ⟨"3", RegData.str "1a"⟩ =
      .error PyError.valueError := by
  decide

/-- Claim C5 (corrected): of the five multi-valued legacy program
fields, only `"7"` (uninstall key) and `"Files"` guard a `None` payload
(leaving the field unset); `"d"`, `"11"` and `"12"` join the payload
unguarded, so a `None` payload raises an uncaught `TypeError` that
aborts the record.  A list payload is newline-joined in source order
for all five. -/
theorem claimC5_theorem (st : ProgState8) (l : List String) :
    progStep8 st ⟨"7", RegData.none⟩ = .ok st ∧
    progStep8 st ⟨"Files", RegData.none⟩ = .ok st ∧
    progStep8 st ⟨"d", RegData.none⟩ = .error PyError.typeError ∧
    progStep8 st ⟨"11", RegData.none⟩ = .error PyError.typeError ∧
    progStep8 st ⟨"12", RegData.none⟩ = .error PyError.typeError ∧
    progStep8 st ⟨"7", RegData.list l⟩ =
      .ok { st with ed := { st.ed with
        uninstallkey := some (String.intercalate "\n" l) } } ∧
    progStep8 st ⟨"d", RegData.list l⟩ =
      .ok { st with ed := { st.ed with
        filepaths := some (String.intercalate "\n" l) } } ∧
    progStep8 st ⟨"11", RegData.list l⟩ =
      .ok { st with ed := { st.ed with
        msiproductcode := some (String.intercalate "\n" l) } } ∧
    progStep8 st ⟨"12", RegData.list l⟩ =
      .ok { st with ed := { st.ed with
        msipackagecode := some (String.intercalate "\n" l) } } ∧
    progStep8 st ⟨"Files", RegData.list l⟩ =
      .ok { st with ed := { st.ed with
        files := some (String.intercalate "\n" l) } } := by
  refine ⟨rfl, rfl, rfl, rfl, rfl, rfl, rfl, rfl, rfl, rfl⟩

/-- Claim C5 counterexample: a legacy program key whose `"d"`
(file-paths) value is `None` does not leave the field unset — the
decode of the whole record fails with a `TypeError`. -/
theorem claimC5_counterexample :
    processAmcacheProgramKey ⟨"\\Root\\Programs\\p1", 9, [⟨"d", RegData.none⟩]⟩ =
      .error PyError.typeError := by
  decide

/-- Claim C6 (corrected): both hash branches store the rendered text
with its first 4 code points removed; when the text is shorter than 4
characters the stored sha1 is the empty string and no error of any kind
is raised (Python slicing never fails). -/
theorem claimC6_theorem (s : String) (stf : Win10FileState) (st8 : FileState8) :
    win10FileStep stf ⟨"FileId", RegData.str s⟩ =
      .ok { stf with ed := { stf.ed with sha1 := some (pySliceFrom 4 s) } } ∧
    fileStep8 st8 ⟨"101", RegData.str s⟩ =
      .ok { st8 with ed := { st8.ed with sha1 := some (pySliceFrom 4 s) } } ∧
    (pySliceFrom 4 s).data = s.data.drop 4 ∧
    (4 ≤ s.length → (pySliceFrom 4 s).length = s.length - 4) ∧
    (s.length < 4 → pySliceFrom 4 s = "") := by
  refine ⟨rfl, rfl, rfl, ?_, ?_⟩
  · intro h
    show (s.data.drop 4).length = s.data.length - 4
    simp
  · intro h
    show String.mk (s.data.drop 4) = ""
    have hd : s.data.drop 4 = [] := List.drop_eq_nil_of_le (le_of_lt h)
    rw [hd]

/-- Claim C6 counterexample: a 3-character `FileId` text decodes
successfully to the empty sha1 instead of failing with
MalformedFieldError. -/
theorem claimC6_counterexample :
    win10FileStep initWin10FileState ⟨"FileId", RegData.str "abc"⟩ =
      .ok { initWin10FileState with
        ed := { initAmcacheEventData with sha1 := some "" } } := by
  decide

/-- Claim C6 witness: the amended theorem applied at the 2-character
hash text `"ab"`. -/
theorem claimC6_witness :
    (("ab" : String).length < 4) ∧ pySliceFrom 4 "ab" = "" :=
  ⟨by decide, ( claimC6_theorem "ab" initWin10FileState initFileState8).2.2.2.2 (by decide)⟩

/-- Claim C3 (corrected): the unconditional Modification emission of the
legacy file decoder takes its instant from the local `amcache_datetime`
variable — set by the value named `"17"` and defaulting to `0` — not
from the key's `last_written_time`, and it is emitted whenever the scan
completes without an uncaught exception (a failing value aborts the
record, so "always" holds only for error-free scans). -/
theorem claimC3_theorem (key : RegistryKey) (st st' : FileState8) (n : Int)
    (hscan : scanValues fileStep8 initFileState8 key.values = .ok st) :
    (∃ rest, processAmcacheFileKey key =
      .ok (⟨st.ed, Instant.filetime st.amcache_datetime,
        TimeDescription.modification⟩ :: rest)) ∧
    fileStep8 st' ⟨"17", RegData.int n⟩ = .ok { st' with amcache_datetime := n } := by
  constructor
  · refine ⟨created8Block st.ed ++ lastmod8Block st.ed ++ link8Block st.ed, ?_⟩
    unfold processAmcacheFileKey
    rw [hscan]
    rfl
  · simp [fileStep8, intOfFormatD_int]

/-- Claim C3 counterexample: a legacy file key whose last-written time
is 100 but which carries no `"17"` value emits its Modification event at
Filetime 0, not at the key's last-written time. -/
theorem claimC3_counterexample :
    processAmcacheFileKey ⟨"\\Root\\File\\row", 100, [⟨"0", RegData.str "prod"⟩]⟩ =
      .ok [⟨{ initAmcacheEventData with productname := some "prod" },
        Instant.filetime 0, TimeDescription.modification⟩] ∧
    ¬ (Instant.filetime 0 = Instant.filetime 100) := by
  decide

/-- Claim C3 witness: the amended theorem applied at a concrete key
carrying `"17" = 5`. -/
theorem claimC3_witness :
    scanValues fileStep8 initFileState8 [⟨"17", RegData.int 5⟩] =
      .ok ⟨5, initAmcacheEventData⟩ ∧
    ((∃ rest, processAmcacheFileKey ⟨"\\Root\\File\\w3", 1, [⟨"17", RegData.int 5⟩]⟩ =
      .ok (⟨initAmcacheEventData, Instant.filetime 5,
        TimeDescription.modification⟩ :: rest)) ∧
    fileStep8 initFileState8 ⟨"17", RegData.int 7⟩ =
      .ok { initFileState8 with amcache_datetime := 7 }) :=
  ⟨by decide,
    claimC3_theorem ⟨"\\Root\\File\\w3", 1, [⟨"17", RegData.int 5⟩]⟩
      ⟨5, initAmcacheEventData⟩ initFileState8 7 (by decide)⟩

/-- Claim C4 (corrected): of the three FILETIME fields of a legacy file
record, only created (`"12"`) and last-modified (`"11"`) are
truthiness-gated — unset or zero suppresses their emissions — while the
key-level datetime (`"17"`, default 0) is emitted unconditionally with
meaning Modification, as Filetime 0 when the field is zero or absent. -/
theorem claimC4_theorem (key : RegistryKey) (st : FileState8)
    (es : List (Emission AmcacheEventData))
    (hscan : scanValues fileStep8 initFileState8 key.values = .ok st)
    (hok : processAmcacheFileKey key = .ok es) :
    ((st.ed.createdts = Option.none ∨ st.ed.createdts = some 0) →
      ∀ e ∈ es, ¬ e.meaning = TimeDescription.creation) ∧
    ((st.ed.lastmodifiedts = Option.none ∨ st.ed.lastmodifiedts = some 0) →
      (es.filter fun e => decide (e.meaning = TimeDescription.modification)).length = 1) ∧
    ⟨st.ed, Instant.filetime st.amcache_datetime,
      TimeDescription.modification⟩ ∈ es := by
  unfold processAmcacheFileKey at hok
  rw [hscan] at hok
  simp only [Except.ok.injEq] at hok
  subst hok
  refine ⟨?_, ?_, ?_⟩
  · intro hcr e he hmean
    rw [created8Block_empty st.ed hcr] at he
    simp at he
    rcases he with he | he | he
    · rw [he] at hmean
      simp at hmean
    · have hm := mem_lastmod8Block st.ed e he
      rw [hm] at hmean
      exact absurd hmean (by decide)
    · have hm := mem_link8Block st.ed e he
      rw [hm] at hmean
      exact absurd hmean (by decide)
  · intro hlm
    rw [lastmod8Block_empty st.ed hlm]
    have hb2 : (created8Block st.ed).filter
        (fun e => decide (e.meaning = TimeDescription.modification)) = [] := by
      rw [List.filter_eq_nil_iff]
      intro e he
      have hm := mem_created8Block st.ed e he
      simp [hm]
    have hb4 : (link8Block st.ed).filter
        (fun e => decide (e.meaning = TimeDescription.modification)) = [] := by
      rw [List.filter_eq_nil_iff]
      intro e he
      have hm := mem_link8Block st.ed e he
      simp [hm]
    simp [List.filter_append, hb2, hb4, List.filter]
  · exact List.mem_append_left _ (List.mem_append_left _
      (List.mem_append_left _ (List.mem_singleton_self _)))

/-- Claim C4 counterexample: a legacy file key with no datetime value at
all (so `amcache_datetime` stays 0) still produces a Modification
emission derived from that zero field, at Filetime 0, instead of
suppressing it. -/
theorem claimC4_counterexample :
    processAmcacheFileKey ⟨"\\Root\\File\\r2", 50, [⟨"15", RegData.str "c:\\a"⟩]⟩ =
      .ok [⟨{ initAmcacheEventData with full_path := some "c:\\a" },
        Instant.filetime 0, TimeDescription.modification⟩] := by
  decide

/-- Claim C4 witness: the amended theorem applied at a key whose
created and last-modified fields are absent. -/
theorem claimC4_witness :
    scanValues fileStep8 initFileState8 [⟨"15", RegData.str "w"⟩] =
      .ok ⟨0, { initAmcacheEventData with full_path := some "w" }⟩ ∧
    processAmcacheFileKey ⟨"\\Root\\File\\w4", 6, [⟨"15", RegData.str "w"⟩]⟩ =
      .ok [⟨{ initAmcacheEventData with full_path := some "w" },
        Instant.filetime 0, TimeDescription.modification⟩] ∧
    (((⟨0, { initAmcacheEventData with full_path := some "w" }⟩ :
        FileState8).ed.createdts = Option.none ∨
      (⟨0, { initAmcacheEventData with full_path := some "w" }⟩ :
        FileState8).ed.createdts = some 0) →
      ∀ e ∈ [(⟨{ initAmcacheEventData with full_path := some "w" },
        Instant.filetime 0, TimeDescription.modification⟩ :
          Emission AmcacheEventData)], ¬ e.meaning = TimeDescription.creation) :=
  ⟨by decide, by decide,
    ( claimC4_theorem ⟨"\\Root\\File\\w4", 6, [⟨"15", RegData.str "w"⟩]⟩
      ⟨0, { initAmcacheEventData with full_path := some "w" }⟩
      [⟨{ initAmcacheEventData with full_path := some "w" },
        Instant.filetime 0, TimeDescription.modification⟩]
      (by decide) (by decide)).1⟩

/-- Claim C7 (corrected): the count of emissions is guaranteed only for
a modern program key whose value scan completes without an uncaught
error (any undecodable value aborts the record with zero emissions).
For such a key, a successfully parsed non-empty `InstallDate` string
yields exactly two emissions — Installation from the key's
last-written-time and Installation from the parsed date — on the same
record, while an absent or empty `InstallDate` yields exactly the
single key-level Installation emission. -/
theorem claimC7_theorem (key : RegistryKey) (st : Win10ProgramState)
    (es : List (Emission AmcacheProgramEventData))
    (hscan : scanValues win10ProgramStep initWin10ProgramState key.values = .ok st)
    (hok : processWin10ProgramKey key = .ok es) :
    (∀ t, st.installdateint = some t →
      es = [⟨st.ed, Instant.raw key.lastWrittenTime, TimeDescription.installation⟩,
        ⟨st.ed, Instant.posix t, TimeDescription.installation⟩]) ∧
    (st.installdateint = Option.none →
      es = [⟨st.ed, Instant.raw key.lastWrittenTime,
        TimeDescription.installation⟩]) ∧
    ((∃ v ∈ key.values, v.name = "InstallDate" ∧
        ∃ s, v.data = RegData.str s ∧ s ≠ "") →
      ¬ st.installdateint = Option.none) ∧
    ((∀ v ∈ key.values, v.name = "InstallDate" → v.data = RegData.str "") →
      st.installdateint = Option.none) := by
  unfold processWin10ProgramKey at hok
  rw [hscan] at hok
  refine ⟨?_, ?_, ?_, ?_⟩
  · intro t ht
    simp only [ht] at hok
    simpa using hok.symm
  · intro ht
    simp only [ht] at hok
    simpa using hok.symm
  · rintro ⟨v, hv, hname, s, hdata, hs⟩ hnone
    obtain ⟨l1, l2, hsplit⟩ := List.append_of_mem hv
    rw [hsplit, scanValues_append] at hscan
    cases h1 : scanValues win10ProgramStep initWin10ProgramState l1 with
    | ok st1 =>
      rw [h1] at hscan
      simp only [scanValues] at hscan
      cases h2 : win10ProgramStep st1 v with
      | ok st2 =>
        rw [h2] at hscan
        have hv' : v = ⟨"InstallDate", RegData.str s⟩ := by
          cases v
          simp_all
        rw [hv'] at h2
        obtain ⟨t, ht⟩ := win10ProgramStep_set st1 st2 s hs h2
        have := scanValues_win10Program_some l2 st2 st hscan (by simp [ht])
        rw [hnone] at this
        simp at this
      | error e => rw [h2] at hscan; simp at hscan
    | error e => rw [h1] at hscan; simp at hscan
  · intro hall
    exact scanValues_win10Program_keep key.values initWin10ProgramState st
      hall hscan

/-- Claim C7 witness: the theorem applied at a key with a valid
`InstallDate` and one with an empty `InstallDate`. -/
theorem claimC7_witness :
    scanValues win10ProgramStep initWin10ProgramState
      [⟨"InstallDate", RegData.str "01/15/2018 10:00:00"⟩] =
      .ok ⟨some 1516010400, initAmcacheProgramEventData⟩ ∧
    processWin10ProgramKey ⟨"\\Root\\InventoryApplication\\g", 5,
      [⟨"InstallDate", RegData.str "01/15/2018 10:00:00"⟩]⟩ =
      .ok [⟨initAmcacheProgramEventData, Instant.raw 5, TimeDescription.installation⟩,
        ⟨initAmcacheProgramEventData, Instant.posix 1516010400,
          TimeDescription.installation⟩] ∧
    ((⟨some 1516010400, initAmcacheProgramEventData⟩ :
        Win10ProgramState).installdateint = some 1516010400 →
      ([⟨initAmcacheProgramEventData, Instant.raw 5, TimeDescription.installation⟩,
        ⟨initAmcacheProgramEventData, Instant.posix 1516010400,
          TimeDescription.installation⟩] :
        List (Emission AmcacheProgramEventData)) =
      [⟨initAmcacheProgramEventData, Instant.raw 5, TimeDescription.installation⟩,
        ⟨initAmcacheProgramEventData, Instant.posix 1516010400,
          TimeDescription.installation⟩]) :=
  ⟨by decide, by decide,
    fun h => ( claimC7_theorem ⟨"\\Root\\InventoryApplication\\g", 5,
      [⟨"InstallDate", RegData.str "01/15/2018 10:00:00"⟩]⟩
      ⟨some 1516010400, initAmcacheProgramEventData⟩
      [⟨initAmcacheProgramEventData, Instant.raw 5, TimeDescription.installation⟩,
        ⟨initAmcacheProgramEventData, Instant.posix 1516010400,
          TimeDescription.installation⟩]
      (by decide) (by decide)).1 1516010400 h⟩

/-- Claim C8 (confirmed): for each of the four record decoders, a value
whose name is not in that decoder's branch chain is ignored: the loop
body leaves the state untouched (so it can never raise), and the
decoder's full result on a key containing the value equals its result
on the same key with the value removed. -/
theorem claimC8_theorem (path : String) (t : Int) (l1 l2 : List RegistryValue)
    (v : RegistryValue) :
    (v.name ∉ win10FileNames →
      (∀ st, win10FileStep st v = .ok st) ∧
      processWin10FileKey ⟨path, t, l1 ++ v :: l2⟩ =
        processWin10FileKey ⟨path, t, l1 ++ l2⟩) ∧
    (v.name ∉ win10ProgramNames →
      (∀ st, win10ProgramStep st v = .ok st) ∧
      processWin10ProgramKey ⟨path, t, l1 ++ v :: l2⟩ =
        processWin10ProgramKey ⟨path, t, l1 ++ l2⟩) ∧
    (v.name ∉ file8Names →
      (∀ st, fileStep8 st v = .ok st) ∧
      processAmcacheFileKey ⟨path, t, l1 ++ v :: l2⟩ =
        processAmcacheFileKey ⟨path, t, l1 ++ l2⟩) ∧
    (v.name ∉ prog8Names →
      (∀ st, progStep8 st v = .ok st) ∧
      processAmcacheProgramKey ⟨path, t, l1 ++ v :: l2⟩ =
        processAmcacheProgramKey ⟨path, t, l1 ++ l2⟩) := by
  refine ⟨fun h => ⟨win10FileStep_unknown v h, ?_⟩,
    fun h => ⟨win10ProgramStep_unknown v h, ?_⟩,
    fun h => ⟨fileStep8_unknown v h, ?_⟩,
    fun h => ⟨progStep8_unknown v h, ?_⟩⟩
  · unfold processWin10FileKey
    rw [show (⟨path, t, l1 ++ v :: l2⟩ : RegistryKey).values = l1 ++ v :: l2 from rfl,
      show (⟨path, t, l1 ++ l2⟩ : RegistryKey).values = l1 ++ l2 from rfl,
      scanValues_skip win10FileStep v (win10FileStep_unknown v h) l1 l2]
  · unfold processWin10ProgramKey
    rw [show (⟨path, t, l1 ++ v :: l2⟩ : RegistryKey).values = l1 ++ v :: l2 from rfl,
      show (⟨path, t, l1 ++ l2⟩ : RegistryKey).values = l1 ++ l2 from rfl,
      scanValues_skip win10ProgramStep v (win10ProgramStep_unknown v h) l1 l2]
  · unfold processAmcacheFileKey
    rw [show (⟨path, t, l1 ++ v :: l2⟩ : RegistryKey).values = l1 ++ v :: l2 from rfl,
      show (⟨path, t, l1 ++ l2⟩ : RegistryKey).values = l1 ++ l2 from rfl,
      scanValues_skip fileStep8 v (fileStep8_unknown v h) l1 l2]
  · unfold processAmcacheProgramKey
    rw [show (⟨path, t, l1 ++ v :: l2⟩ : RegistryKey).values = l1 ++ v :: l2 from rfl,
      show (⟨path, t, l1 ++ l2⟩ : RegistryKey).values = l1 ++ l2 from rfl,
      scanValues_skip progStep8 v (progStep8_unknown v h) l1 l2]

/-- Claim C8 witness: the theorem applied to the unknown value name
`"Unknown"` inserted into a one-value key for each decoder. -/
theorem claimC8_witness :
    processWin10FileKey ⟨"\\Root\\InventoryApplicationFile\\w8", 3,
      [⟨"ProductName", RegData.str "p"⟩, ⟨"Unknown", RegData.str "x"⟩]⟩ =
      processWin10FileKey ⟨"\\Root\\InventoryApplicationFile\\w8", 3,
        [⟨"ProductName", RegData.str "p"⟩]⟩ ∧
    processWin10ProgramKey ⟨"\\Root\\InventoryApplication\\w8", 3,
      [⟨"Name", RegData.str "p"⟩, ⟨"Unknown", RegData.str "x"⟩]⟩ =
      processWin10ProgramKey ⟨"\\Root\\InventoryApplication\\w8", 3,
        [⟨"Name", RegData.str "p"⟩]⟩ ∧
    processAmcacheFileKey ⟨"\\Root\\File\\w8", 3,
      [⟨"0", RegData.str "p"⟩, ⟨"Unknown", RegData.str "x"⟩]⟩ =
      processAmcacheFileKey ⟨"\\Root\\File\\w8", 3, [⟨"0", RegData.str "p"⟩]⟩ ∧
    processAmcacheProgramKey ⟨"\\Root\\Programs\\w8", 3,
      [⟨"0", RegData.str "p"⟩, ⟨"Unknown", RegData.str "x"⟩]⟩ =
      processAmcacheProgramKey ⟨"\\Root\\Programs\\w8", 3,
        [⟨"0", RegData.str "p"⟩]⟩ := by
  refine ⟨?_, ?_, ?_, ?_⟩
  · exact (( claimC8_theorem "\\Root\\InventoryApplicationFile\\w8" 3
      [⟨"ProductName", RegData.str "p"⟩] []
      ⟨"Unknown", RegData.str "x"⟩).1 (by decide)).2
  · exact ((( claimC8_theorem "\\Root\\InventoryApplication\\w8" 3
      [⟨"Name", RegData.str "p"⟩] []
      ⟨"Unknown", RegData.str "x"⟩).2.1) (by decide)).2
  · exact ((( claimC8_theorem "\\Root\\File\\w8" 3
      [⟨"0", RegData.str "p"⟩] []
      ⟨"Unknown", RegData.str "x"⟩).2.2.1) (by decide)).2
  · exact ((( claimC8_theorem "\\Root\\Programs\\w8" 3
      [⟨"0", RegData.str "p"⟩] []
      ⟨"Unknown", RegData.str "x"⟩).2.2.2) (by decide)).2

/-- Claim C9 (confirmed): the modern file prefix extends the modern
program prefix, and `ExtractEvents` tests the file prefix first, so a
non-empty key whose path starts with `\Root\InventoryApplicationFile`
is dispatched to the file-record decoder and never to the
program-record decoder. -/
theorem claimC9_theorem (key : RegistryKey) (hv : ¬ key.values = [])
    (hf : pyStartsWith key.path amcacheRootWin10FileKey = true) :
    pyStartsWith key.path amcacheRootWin10ProgramKey = true ∧
    amcache10ExtractEvents key =
      Amcache10Output.fileEvents (processWin10FileKey key) := by
  have hsplit : amcacheRootWin10FileKey.data =
      amcacheRootWin10ProgramKey.data ++ ("File" : String).data := by decide
  have hp : pyStartsWith key.path amcacheRootWin10ProgramKey = true := by
    unfold pyStartsWith at hf ⊢
    rw [hsplit] at hf
    exact charsStartWith_of_append _ _ _ hf
  refine ⟨hp, ?_⟩
  unfold amcache10ExtractEvents
  rw [if_neg (fun h => hv (List.length_eq_zero.mp h)), if_pos hf]

/-- Claim C9 witness: the theorem applied at a concrete
`\Root\InventoryApplicationFile` key. -/
theorem claimC9_witness :
    pyStartsWith "\\Root\\InventoryApplicationFile\\k9"
      amcacheRootWin10ProgramKey = true ∧
    amcache10ExtractEvents ⟨"\\Root\\InventoryApplicationFile\\k9", 2,
      [⟨"ProductName", RegData.str "p"⟩]⟩ =
      Amcache10Output.fileEvents (processWin10FileKey
        ⟨"\\Root\\InventoryApplicationFile\\k9", 2,
          [⟨"ProductName", RegData.str "p"⟩]⟩) :=
  claimC9_theorem ⟨"\\Root\\InventoryApplicationFile\\k9", 2,
    [⟨"ProductName", RegData.str "p"⟩]⟩ (by decide) (by decide)

/-- Claim C10 (corrected): for modern keys whose value scans complete
without an uncaught error (an undecodable value aborts the record with
no emissions), the two derived-date emissions gate on zero differently
— a `linkdateint` of exactly 0 fails the truthiness test
(`if linkdateint:`), so the modern file decoder emits no Creation
event, while an `installdateint` of exactly 0 passes the
`is not None` test, so the modern program decoder still emits the
second Installation event at PosixTime 0. -/
theorem claimC10_theorem (kf kp : RegistryKey) (stf : Win10FileState)
    (stp : Win10ProgramState)
    (hf : scanValues win10FileStep initWin10FileState kf.values = .ok stf)
    (hlink : stf.linkdateint = some 0)
    (hp : scanValues win10ProgramStep initWin10ProgramState kp.values = .ok stp)
    (hinst : stp.installdateint = some 0) :
    processWin10FileKey kf =
      .ok [⟨stf.ed, Instant.raw kf.lastWrittenTime,
        TimeDescription.modification⟩] ∧
    processWin10ProgramKey kp =
      .ok [⟨stp.ed, Instant.raw kp.lastWrittenTime, TimeDescription.installation⟩,
        ⟨stp.ed, Instant.posix 0, TimeDescription.installation⟩] := by
  constructor
  · unfold processWin10FileKey
    rw [hf]
    simp [hlink]
  · unfold processWin10ProgramKey
    rw [hp]
    simp [hinst]

/-- Claim C10 witness: the theorem applied at keys whose `LinkDate` and
`InstallDate` both parse to Unix time 0. -/
theorem claimC10_witness :
    scanValues win10FileStep initWin10FileState
      [⟨"LinkDate", RegData.str "01/01/1970 00:00:00"⟩] =
      .ok ⟨some 0, initAmcacheEventData⟩ ∧
    scanValues win10ProgramStep initWin10ProgramState
      [⟨"InstallDate", RegData.str "01/01/1970 00:00:00"⟩] =
      .ok ⟨some 0, initAmcacheProgramEventData⟩ ∧
    processWin10FileKey ⟨"\\Root\\InventoryApplicationFile\\kA", 8,
      [⟨"LinkDate", RegData.str "01/01/1970 00:00:00"⟩]⟩ =
      .ok [⟨initAmcacheEventData, Instant.raw 8, TimeDescription.modification⟩] ∧
    processWin10ProgramKey ⟨"\\Root\\InventoryApplication\\kA", 8,
      [⟨"InstallDate", RegData.str "01/01/1970 00:00:00"⟩]⟩ =
      .ok [⟨initAmcacheProgramEventData, Instant.raw 8,
        TimeDescription.installation⟩,
        ⟨initAmcacheProgramEventData, Instant.posix 0,
          TimeDescription.installation⟩] := by
  have h := claimC10_theorem
    ⟨"\\Root\\InventoryApplicationFile\\kA", 8,
      [⟨"LinkDate", RegData.str "01/01/1970 00:00:00"⟩]⟩
    ⟨"\\Root\\InventoryApplication\\kA", 8,
      [⟨"InstallDate", RegData.str "01/01/1970 00:00:00"⟩]⟩
    ⟨some 0, initAmcacheEventData⟩ ⟨some 0, initAmcacheProgramEventData⟩
    (by decide) rfl (by decide) rfl
  exact ⟨by decide, by decide, h.1, h.2⟩

/-- Claim C7 counterexample: a modern program key carrying a valid
non-empty `InstallDate` plus a `Name` value with a `None` payload
aborts with an uncaught `TypeError` (`'{:s}'.format(None)`), producing
zero emissions, not the two the unconditional claim asserts. -/
theorem claimC7_counterexample :
    processWin10ProgramKey ⟨"\\Root\\InventoryApplication\\c7", 5,
      [⟨"InstallDate", RegData.str "01/15/2018 10:00:00"⟩,
       ⟨"Name", RegData.none⟩]⟩ = .error PyError.typeError := by
  decide

/-- Claim C10 counterexample: a modern program key whose `InstallDate`
parses to Unix time exactly 0, followed by a `ManifestPath` value with
a `None` payload, aborts with an uncaught `TypeError` and produces no
emission at all — in particular no second Installation emission,
falsifying the unconditional program half of the claim. -/
theorem claimC10_counterexample :
    processWin10ProgramKey ⟨"\\Root\\InventoryApplication\\cA", 8,
      [⟨"InstallDate", RegData.str "01/01/1970 00:00:00"⟩,
       ⟨"ManifestPath", RegData.none⟩]⟩ = .error PyError.typeError := by
  decide
